import Mathlib

/-!
# Verification of the flux peer-to-peer file-transfer coordinator

A shallow embedding, in Lean 4, of the core data model and operations of the
flux repository: the chunk framing layer (`ChunkManager` in
`src/client/core/transfer/TransferManager.ts`), the compression policy
(`CompressionService.ts`), the code registry and abuse control
(`CodeManager.ts` on the broker), and the signaling broker's message handlers
(`TransferServer` in `server.ts`).

Byte strings are modelled as `List Nat` (each entry one byte), JavaScript
`Map`s over string keys as functions `String → Option β` (key-unique by
construction), the `Map` inside the chunk accumulator as an association list
(insertion order preserved, as in a JS `Map`, and `size` observable), and
`Date.now()` as an explicit `now : Nat` parameter in milliseconds.
-/

namespace Flux

/-! ## Chunk framing (`ChunkManager`) -/

/-- A chunk as in `ChunkManager.ts`: `{ index, data, size }`. -/
structure Chunk where
  index : Nat
  data : List Nat
  size : Nat
deriving DecidableEq, Repr

/-- File metadata as produced by `ChunkManager.createMetadata`. -/
structure ChunkMetadata where
  totalChunks : Nat
  totalSize : Nat
  chunkSize : Nat
  fileName : String
  fileType : String
deriving DecidableEq, Repr

/-- The value `Math.ceil(a / b)` on natural numbers (used for `totalChunks`). -/
def ceilDiv (a b : Nat) : Nat := (a + b - 1) / b

/-- Model of `ChunkManager.split`: chunk `i` holds bytes `[i*chunkSize, min((i+1)*chunkSize, size))`
of the file; indices run from `0` to `totalChunks - 1`. -/
def split (file : List Nat) (chunkSize : Nat) : List Chunk :=
  (List.range (ceilDiv file.length chunkSize)).map fun i =>
    let data := (file.drop (i * chunkSize)).take chunkSize
    { index := i, data := data, size := data.length }

/-- Model of `ChunkManager.createMetadata`. -/
def createMetadata (file : List Nat) (chunkSize : Nat) (fileName fileType : String) :
    ChunkMetadata :=
  { totalChunks := ceilDiv file.length chunkSize
    totalSize := file.length
    chunkSize := chunkSize
    fileName := fileName
    fileType := fileType }

/-- JS `Map.get` on an association list, mirroring JS `Map` lookup. -/
def mapGet (m : List (Nat × List Nat)) (k : Nat) : Option (List Nat) :=
  match m with
  | [] => none
  | (k', v) :: rest => if k' = k then some v else mapGet rest k

/-- The receiving side of `ChunkManager`: `receivedChunks` (a JS `Map`, modelled
as an association list in insertion order) plus the optional metadata. -/
structure ChunkAccumulator where
  receivedChunks : List (Nat × List Nat)
  metadata : Option ChunkMetadata

/-- A fresh accumulator (as after `reset()`). -/
def ChunkAccumulator.fresh : ChunkAccumulator := { receivedChunks := [], metadata := none }

/-- Model of `ChunkManager.setMetadata`. -/
def ChunkAccumulator.setMetadata (acc : ChunkAccumulator) (m : ChunkMetadata) :
    ChunkAccumulator :=
  { acc with metadata := some m }

/-- Model of `ChunkManager.addChunk`: refuse duplicates (return `false`), otherwise store
by index (a new key is appended, as `Map.set` does). -/
def ChunkAccumulator.addChunk (acc : ChunkAccumulator) (c : Chunk) :
    ChunkAccumulator × Bool :=
  if (mapGet acc.receivedChunks c.index).isSome then (acc, false)
  else ({ acc with receivedChunks := acc.receivedChunks ++ [(c.index, c.data)] }, true)

/-- Model of `ChunkManager.isComplete`: with no metadata, `false`; otherwise compare the
`Map`'s size with `totalChunks`. -/
def ChunkAccumulator.isComplete (acc : ChunkAccumulator) : Bool :=
  match acc.metadata with
  | none => false
  | some m => acc.receivedChunks.length == m.totalChunks

/-- Model of `ChunkManager.getMissingChunks`. -/
def ChunkAccumulator.getMissingChunks (acc : ChunkAccumulator) : List Nat :=
  match acc.metadata with
  | none => []
  | some m => (List.range m.totalChunks).filter fun i => (mapGet acc.receivedChunks i).isNone

/-- The `for` loop inside `ChunkManager.merge`: collect the stored data for the
given indices in order, failing on the first missing one. -/
def collectChunks (m : List (Nat × List Nat)) : List Nat → Except String (List (List Nat))
  | [] => .ok []
  | i :: rest =>
    match mapGet m i with
    | none => .error ("Missing chunk " ++ toString i)
    | some d => (collectChunks m rest).map (d :: ·)

/-- Model of `ChunkManager.merge`: requires metadata and completeness, then concatenates
the chunk payloads in index order. -/
def ChunkAccumulator.merge (acc : ChunkAccumulator) : Except String (List Nat) :=
  match acc.metadata with
  | none => .error "No metadata set"
  | some m =>
    if !acc.isComplete then .error "Missing chunks"
    else (collectChunks acc.receivedChunks (List.range m.totalChunks)).map List.flatten

/-- Feeding a list of chunks into an accumulator one by one (the receiver's
repeated `addChunk` calls). -/
def addAllChunks (acc : ChunkAccumulator) (cs : List Chunk) : ChunkAccumulator :=
  cs.foldl (fun a c => (a.addChunk c).1) acc

/-- Model of `ChunkManager.deserializeChunk`: the source throws
`Invalid chunk data: too small` when fewer than 8 header bytes are present and
otherwise decodes `index` from bytes 0..4 (little endian), `size` from
bytes 4..8 and takes the rest as payload — with no further validation. -/
def deserializeChunk (bytes : List Nat) : Except String Chunk :=
  match bytes with
  | b0 :: b1 :: b2 :: b3 :: b4 :: b5 :: b6 :: b7 :: rest =>
    .ok { index := b0 + b1 * 256 + b2 * 65536 + b3 * 16777216
          size := b4 + b5 * 256 + b6 * 65536 + b7 * 16777216
          data := rest }
  | _ => .error "Invalid chunk data: too small"

/-! ## Code generation (`CodeManager.generateRandomCode` / `generateCode`)

Code strings are modelled as `List Char`.  `num.toString()` (decimal) is
modelled by `decDigits`, and `String.prototype.padStart` by `padStartL`. -/

/-- Decimal rendering of a natural number, most significant digit first
(the JS `num.toString()` for non-negative integers). -/
def decDigits (n : Nat) : List Char :=
  if h : n < 10 then [Char.ofNat (48 + n)]
  else decDigits (n / 10) ++ [Char.ofNat (48 + n % 10)]
termination_by n
decreasing_by exact Nat.div_lt_self (by omega) (by omega)

/-- JS `s.padStart(len, c)`: prepend copies of `c` until the length is `len`. -/
def padStartL (s : List Char) (len : Nat) (c : Char) : List Char :=
  List.replicate (len - s.length) c ++ s

/-- Model of `CodeManager.generateRandomCode`: `Math.floor(Math.random() * 10000)`
rendered in decimal and padded with `'0'` to length 4.  The random draw is the
explicit argument `rand` (a value in `[0, 10000)`). -/
def generateRandomCode (rand : Nat) : List Char :=
  padStartL (decDigits rand) 4 '0'

/-- The retry loop of `CodeManager.generateCode`.  `isActive k code` abstracts
`this.isCodeActive(code)` as observed on iteration `k` (the activity predicate
may change mid-loop because iteration 100 runs `cleanupExpiredCodes`), and
`draws k` is the `k`-th PRNG draw.  `attempts` is the loop counter and `fuel`
the remaining iterations (the source bounds the loop by `attempts < 200`). -/
def generateCodeGo (isActive : Nat → List Char → Bool) (draws : Nat → Nat)
    (attempts fuel : Nat) : List Char :=
  match fuel with
  | 0 => generateRandomCode (draws attempts)
  | fuel' + 1 =>
    let code := generateRandomCode (draws attempts)
    if isActive attempts code && attempts + 1 < 200 then
      generateCodeGo isActive draws (attempts + 1) fuel'
    else code

/-- Model of `CodeManager.generateCode`: run the do/while retry loop from attempt 0. -/
def generateCode (isActive : Nat → List Char → Bool) (draws : Nat → Nat) : List Char :=
  generateCodeGo isActive draws 0 200

/-- The six-digit code format `^\d{6}$` demanded by the spec and by the
`CodeManager` unit test (`expect(code).toMatch(...)`). -/
def matchesSixDigits (s : List Char) : Bool :=
  s.length == 6 && s.all Char.isDigit

/-! ## Code registry and abuse control (`CodeManager`)

The three JS `Map`s (`activeCodes`, `rateLimits`, `lockouts`) are modelled as
functions `String → Option β`; `Date.now()` is the explicit `now` argument. -/

/-- JS `Map.set` for string-keyed maps-as-functions. -/
def mapSet {β : Type} (m : String → Option β) (k : String) (v : β) : String → Option β :=
  fun k' => if k' = k then some v else m k'

/-- JS `Map.delete` for string-keyed maps-as-functions. -/
def mapDel {β : Type} (m : String → Option β) (k : String) : String → Option β :=
  fun k' => if k' = k then none else m k'

/-- Structure `CodeInfo` from `CodeManager.ts` (the `code` field is the map key). -/
structure CodeInfo where
  receiverConnectionId : String
  createdAt : Nat
deriving DecidableEq, Repr

/-- Structure `RateLimitInfo` from `CodeManager.ts`. -/
structure RateLimitInfo where
  attempts : Nat
  windowStart : Nat
deriving DecidableEq, Repr

/-- Structure `LockoutInfo` from `CodeManager.ts` (`lockedUntil: number | null`). -/
structure LockoutInfo where
  failedAttempts : Nat
  lockedUntil : Option Nat
deriving DecidableEq, Repr

/-- The constants of `CodeManager.ts` (milliseconds). -/
def CODE_EXPIRY_MS : Nat := 5 * 60 * 1000

def RATE_LIMIT_WINDOW_MS : Nat := 60 * 1000

def RATE_LIMIT_MAX_ATTEMPTS : Nat := 10

def LOCKOUT_THRESHOLD : Nat := 3

def LOCKOUT_DURATION_MS : Nat := 5 * 60 * 1000

/-- The mutable state of a `CodeManager` instance. -/
structure CMState where
  activeCodes : String → Option CodeInfo
  rateLimits : String → Option RateLimitInfo
  lockouts : String → Option LockoutInfo

/-- Model of `CodeManager.registerCode`. -/
def registerCode (st : CMState) (now : Nat) (code receiverConnectionId : String) : CMState :=
  { st with activeCodes := mapSet st.activeCodes code ⟨receiverConnectionId, now⟩ }

/-- Model of `CodeManager.validateCode`: false for unregistered codes; an entry older
than `CODE_EXPIRY_MS` is evicted and reported false; otherwise true. -/
def validateCode (st : CMState) (now : Nat) (code : String) : Bool × CMState :=
  match st.activeCodes code with
  | none => (false, st)
  | some info =>
    if now - info.createdAt > CODE_EXPIRY_MS then
      (false, { st with activeCodes := mapDel st.activeCodes code })
    else (true, st)

/-- Model of `CodeManager.expireCode`. -/
def expireCode (st : CMState) (code : String) : CMState :=
  { st with activeCodes := mapDel st.activeCodes code }

/-- Model of `CodeManager.checkRateLimit`: true with no bucket; a rolled-over window is
deleted and reported true; otherwise compare `attempts` to the cap. -/
def checkRateLimit (st : CMState) (now : Nat) (ip : String) : Bool × CMState :=
  match st.rateLimits ip with
  | none => (true, st)
  | some info =>
    if now - info.windowStart > RATE_LIMIT_WINDOW_MS then
      (true, { st with rateLimits := mapDel st.rateLimits ip })
    else (decide (info.attempts < RATE_LIMIT_MAX_ATTEMPTS), st)

/-- Model of `CodeManager.recordAttempt`. -/
def recordAttempt (st : CMState) (now : Nat) (ip : String) : CMState :=
  match st.rateLimits ip with
  | none => { st with rateLimits := mapSet st.rateLimits ip ⟨1, now⟩ }
  | some info =>
    if now - info.windowStart > RATE_LIMIT_WINDOW_MS then
      { st with rateLimits := mapSet st.rateLimits ip ⟨1, now⟩ }
    else
      { st with rateLimits := mapSet st.rateLimits ip ⟨info.attempts + 1, info.windowStart⟩ }

/-- Model of `CodeManager.recordFailedAttempt`: bump the consecutive-failure counter and
set `lockedUntil` once the threshold is reached. -/
def recordFailedAttempt (st : CMState) (now : Nat) (ip : String) : CMState :=
  let info := (st.lockouts ip).getD ⟨0, none⟩
  let fa := info.failedAttempts + 1
  let lockedUntil := if fa ≥ LOCKOUT_THRESHOLD then some (now + LOCKOUT_DURATION_MS)
    else info.lockedUntil
  { st with lockouts := mapSet st.lockouts ip ⟨fa, lockedUntil⟩ }

/-- Model of `CodeManager.recordSuccessfulAttempt`: drop the lockout record. -/
def recordSuccessfulAttempt (st : CMState) (ip : String) : CMState :=
  { st with lockouts := mapDel st.lockouts ip }

/-- Model of `CodeManager.isLockedOut`: false with no record or no `lockedUntil`; an
elapsed lockout is deleted and reported false; otherwise true. -/
def isLockedOut (st : CMState) (now : Nat) (ip : String) : Bool × CMState :=
  match st.lockouts ip with
  | none => (false, st)
  | some info =>
    match info.lockedUntil with
    | none => (false, st)
    | some lockedUntil =>
      if now > lockedUntil then
        (false, { st with lockouts := mapDel st.lockouts ip })
      else (true, st)

/-! ## The signaling broker (`TransferServer` in `server.ts`)

Each handler is a pure function from the server state (the global
`CodeManager` state plus the room's `peers` and `locks` maps) to the new state
and the list of observable outbound effects, in emission order. -/

/-- Peer roles. -/
inductive Role
  | sender
  | receiver
deriving DecidableEq, Repr

/-- Structure `PeerInfo` from `server.ts`. -/
structure PeerInfo where
  connectionId : String
  role : Role
deriving DecidableEq, Repr

/-- Structure `ConnectionLock` from the server types. -/
structure ConnectionLock where
  lockId : String
  peerId : String
  expiresAt : Nat
deriving DecidableEq, Repr

/-- The broker's wire error codes. -/
inductive ErrCode
  | ROOM_FULL
  | INVALID_CODE
  | PEER_DISCONNECTED
  | LOCK_EXPIRED
  | LOCK_NOT_FOUND
  | RATE_LIMITED
deriving DecidableEq, Repr

/-- Broker→client messages (the fields the handlers populate). -/
inductive ServerMsg
  | codeGenerated (code roomId : String) (timestamp : Nat)
  | peerJoined (peerId : String) (role : Role) (timestamp : Nat)
  | connectionLocked (lockId : String) (expiresAt : Nat)
  | peerStatus (fromPeerId : String) (status : String) (progress speed : Nat)
  | error (code : ErrCode) (message : String)
deriving DecidableEq, Repr

/-- Observable outbound effects of a handler, in order: a direct reply to the
message's sender, a room-wide broadcast, a broadcast excluding one connection,
or a relay of an opaque payload to a target with `fromPeerId` attached. -/
inductive Effect
  | reply (msg : ServerMsg)
  | broadcast (msg : ServerMsg)
  | broadcastExcept (connectionId : String) (msg : ServerMsg)
  | forward (targetPeerId fromPeerId : String)
deriving DecidableEq, Repr

/-- The state a `TransferServer` room closes over: the process-wide
`CodeManager` and the per-room `peers` and `locks` maps. -/
structure ServerState where
  cm : CMState
  peers : String → Option PeerInfo
  locks : String → Option ConnectionLock

/-- Model of `TransferServer.handleGenerateCode`: register the room id as the code,
record the sender as the receiver peer, reply `code_generated`. -/
def handleGenerateCode (st : ServerState) (now : Nat) (senderId roomId : String) :
    ServerState × List Effect :=
  let st' := { st with
    cm := registerCode st.cm now roomId senderId
    peers := mapSet st.peers senderId ⟨senderId, Role.receiver⟩ }
  (st', [.reply (.codeGenerated roomId roomId now)])

/-- Model of `TransferServer.handleJoinRoom`: lockout gate, then rate gate, then
`recordAttempt`, then code validation; failures reply `RATE_LIMITED` or
`INVALID_CODE`, success clears the lockout record, registers the peer and
broadcasts `peer_joined`. -/
def handleJoinRoom (st : ServerState) (now : Nat) (senderId code : String)
    (role : Role) (clientIp : String) : ServerState × List Effect :=
  let (locked, cm1) := isLockedOut st.cm now clientIp
  if locked then
    ({ st with cm := cm1 },
     [.reply (.error .RATE_LIMITED "Too many failed attempts. Please wait 5 minutes.")])
  else
    let (rateOk, cm2) := checkRateLimit cm1 now clientIp
    if !rateOk then
      ({ st with cm := cm2 },
       [.reply (.error .RATE_LIMITED "Too many requests. Please wait a moment.")])
    else
      let cm3 := recordAttempt cm2 now clientIp
      let (valid, cm4) := validateCode cm3 now code
      if !valid then
        ({ st with cm := recordFailedAttempt cm4 now clientIp },
         [.reply (.error .INVALID_CODE "Invalid or expired code")])
      else
        ({ st with
            cm := recordSuccessfulAttempt cm4 clientIp
            peers := mapSet st.peers senderId ⟨senderId, role⟩ },
         [.broadcast (.peerJoined senderId role now)])

/-- Model of `TransferServer.handleLockConnection`: mint a lock for the given `peerId`
(no membership check) expiring in 5 minutes and reply `connection_locked`.
The freshly minted id (`lock_<timestamp>_<random>` in the source) is the
explicit argument `mintedLockId`. -/
def handleLockConnection (st : ServerState) (now : Nat) (peerId mintedLockId : String) :
    ServerState × List Effect :=
  let expiresAt := now + 5 * 60 * 1000
  ({ st with locks := mapSet st.locks mintedLockId ⟨mintedLockId, peerId, expiresAt⟩ },
   [.reply (.connectionLocked mintedLockId expiresAt)])

/-- Model of `TransferServer.handleReconnectWithLock`: missing lock → `LOCK_NOT_FOUND`;
elapsed lock → delete it and `LOCK_EXPIRED`; otherwise consume the lock,
transplant the previously locked peer (when still present) onto the new
connection id, and reply `peer_joined` with the inherited role (falling back
to `sender` when the peer is gone). -/
def handleReconnectWithLock (st : ServerState) (now : Nat) (senderId lockId : String) :
    ServerState × List Effect :=
  match st.locks lockId with
  | none => (st, [.reply (.error .LOCK_NOT_FOUND "Lock not found")])
  | some lock =>
    if now > lock.expiresAt then
      ({ st with locks := mapDel st.locks lockId },
       [.reply (.error .LOCK_EXPIRED "Lock has expired")])
    else
      let st1 := { st with locks := mapDel st.locks lockId }
      match st.peers lock.peerId with
      | some existingPeer =>
        ({ st1 with peers := mapSet (mapDel st1.peers lock.peerId) senderId existingPeer },
         [.reply (.peerJoined senderId existingPeer.role now)])
      | none => (st1, [.reply (.peerJoined senderId Role.sender now)])

/-- Model of `TransferServer.broadcastStatus`. -/
def broadcastStatus (st : ServerState) (senderId status : String) (progress speed : Nat) :
    ServerState × List Effect :=
  (st, [.broadcastExcept senderId (.peerStatus senderId status progress speed)])

/-- Client→broker messages (the `type` discriminator of the JSON wire form). -/
inductive ClientMsg
  | generateCode
  | joinRoom (code : String) (role : Role)
  | webrtcOffer (targetPeerId : String)
  | webrtcAnswer (targetPeerId : String)
  | iceCandidate (targetPeerId : String)
  | lockConnection (peerId : String)
  | reconnectWithLock (lockId : String)
  | transferStatus (status : String) (progress speed : Nat)
deriving DecidableEq, Repr

/-- Classification of an inbound text frame: unparseable JSON, well-formed
JSON whose `type` is none of the known discriminators, or a known message. -/
inductive Inbound
  | malformed
  | unknownType
  | msg (m : ClientMsg)
deriving DecidableEq, Repr

/-- Model of `TransferServer.onMessage`: the `JSON.parse` catch block replies
`INVALID_CODE`/`Invalid message format`; the `switch` default replies
`INVALID_CODE`/`Unknown message type`; known types dispatch to their handlers
(the client key used for rate limiting is `sender.id`). -/
def onMessage (st : ServerState) (now : Nat) (senderId roomId mintedLockId : String)
    (inbound : Inbound) : ServerState × List Effect :=
  match inbound with
  | .malformed => (st, [.reply (.error .INVALID_CODE "Invalid message format")])
  | .unknownType => (st, [.reply (.error .INVALID_CODE "Unknown message type")])
  | .msg m =>
    match m with
    | .generateCode => handleGenerateCode st now senderId roomId
    | .joinRoom code role => handleJoinRoom st now senderId code role senderId
    | .webrtcOffer target => (st, [.forward target senderId])
    | .webrtcAnswer target => (st, [.forward target senderId])
    | .iceCandidate target => (st, [.forward target senderId])
    | .lockConnection peerId => handleLockConnection st now peerId mintedLockId
    | .reconnectWithLock lockId => handleReconnectWithLock st now senderId lockId
    | .transferStatus status progress speed => broadcastStatus st senderId status progress speed

/-! ## Compression policy (`CompressionService` and `TransferManager.sendFile`) -/

/-- Model of `CompressionService.shouldCompress`: sizes in `[10 KiB, 100 MiB]`. -/
def shouldCompress (size : Nat) : Bool :=
  decide (10 * 1024 ≤ size) && decide (size ≤ 100 * 1024 * 1024)

/-- Model of `CompressionService.compress`: when no streaming codec is available the
input is returned unchanged; otherwise the platform codec (abstracted as
`codec`) runs. -/
def compress (isSupported : Bool) (codec : List Nat → List Nat) (data : List Nat) :
    List Nat :=
  if isSupported then codec data else data

/-- Model of `CompressionService.decompress`: same fallback shape as `compress`. -/
def decompress (isSupported : Bool) (codec : List Nat → List Nat) (data : List Nat) :
    List Nat :=
  if isSupported then codec data else data

/-- The `compressed` flag `TransferManager.sendFile` puts into the
`file_metadata` message: `enableCompression && CompressionService.isSupported()
&& this.compression.shouldCompress(file.size)`. -/
def senderCompressedFlag (enableCompression isSupported : Bool) (fileSize : Nat) : Bool :=
  enableCompression && isSupported && shouldCompress fileSize

/-! ## Concrete states used to instantiate the theorems -/

/-- A `CodeManager` with no registrations at all. -/
def cmEmpty : CMState :=
  { activeCodes := fun _ => none, rateLimits := fun _ => none, lockouts := fun _ => none }

/-- A `CodeManager` holding exactly the code `"123456"` registered at time 0. -/
def cmRegisteredAtZero : CMState :=
  { cmEmpty with
    activeCodes := fun c => if c = "123456" then some ⟨"receiver-abc", 0⟩ else none }

/-- A broker room with no peers, no locks, and an empty `CodeManager`. -/
def serverStateEmpty : ServerState :=
  { cm := cmEmpty, peers := fun _ => none, locks := fun _ => none }

/-- A broker state whose client key `"1.2.3.4"` is locked out until t=600000. -/
def serverStateLocked : ServerState :=
  { serverStateEmpty with
    cm := { cmEmpty with
      lockouts := fun k => if k = "1.2.3.4" then some ⟨3, some 600000⟩ else none } }

/-- A broker state whose client key `"1.2.3.4"` has used all 10 attempts of the
current window (window started at t=0). -/
def serverStateRateLimited : ServerState :=
  { serverStateEmpty with
    cm := { cmEmpty with
      rateLimits := fun k => if k = "1.2.3.4" then some ⟨10, 0⟩ else none } }

/-- A broker state holding code `"123456"` (registered at 0) and a receiver
peer `"conn-r"` in the room, plus lock `"lock-1"` for `"conn-r"` expiring at
t=300000. -/
def serverStateWithLock : ServerState :=
  { cm := cmRegisteredAtZero
    peers := fun k => if k = "conn-r" then some ⟨"conn-r", Role.receiver⟩ else none
    locks := fun k => if k = "lock-1" then some ⟨"lock-1", "conn-r", 300000⟩ else none }

/-- A broker state holding lock `"lock-2"` for the departed peer `"conn-gone"`
(no peers in the room), expiring at t=300000. -/
def serverStateLockNoPeer : ServerState :=
  { serverStateEmpty with
    locks := fun k => if k = "lock-2" then some ⟨"lock-2", "conn-gone", 300000⟩ else none }

/-- Metadata announcing a single chunk (1 byte, chunk size 1024). -/
def mdOneChunk : ChunkMetadata :=
  { totalChunks := 1, totalSize := 1, chunkSize := 1024
    fileName := "one.bin", fileType := "application/octet-stream" }

/-- The accumulator obtained by feeding the out-of-range chunk `index = 5`
into a fresh accumulator carrying `mdOneChunk`. -/
def accOutOfRange : ChunkAccumulator :=
  (ChunkAccumulator.addChunk (ChunkAccumulator.setMetadata .fresh mdOneChunk)
    { index := 5, data := [42], size := 1 }).1

/-- The number of consecutive failed attempts `CodeManager` has on file for a
client key (0 when no lockout record exists). -/
def failCount (cm : CMState) (ip : String) : Nat :=
  match cm.lockouts ip with
  | none => 0
  | some i => i.failedAttempts

/-! ## C3: chunk deserialization -/

/-- C3 counterexample: the claim says deserialization must fail when the
decoded `size` field (here 100) exceeds the remaining payload length
(here `9 - 8 = 1`); on the 9-byte input below, `deserializeChunk` nevertheless
succeeds, returning the oversized `size` untouched. -/
theorem deserializeChunk_ignores_size_field :
    deserializeChunk [0, 0, 0, 0, 100, 0, 0, 0, 42] =
      .ok { index := 0, size := 100, data := [42] } ∧ 9 - 8 < 100 := by
  constructor
  · rfl
  · decide

/-- C3 (amended): deserializing a byte string fails (with the `Malformed`
error) exactly when it has fewer than 8 bytes; the decoded `size` field is
never compared against the number of remaining payload bytes. -/
theorem deserializeChunk_fails_iff_short (bytes : List Nat) :
    (deserializeChunk bytes).isOk = true ↔ 8 ≤ bytes.length := by
  rcases bytes with _ | ⟨b0, _ | ⟨b1, _ | ⟨b2, _ | ⟨b3, _ | ⟨b4, _ | ⟨b5, _ | ⟨b6, _ | ⟨b7, rest⟩⟩⟩⟩⟩⟩⟩⟩ <;>
    simp [deserializeChunk, Except.isOk, Except.toBool]

/-! ## C5: the sender's compression flag -/

/-- C5: the sender sets `file_metadata.compressed` to true iff compression is
enabled, the streaming codec is available and the file size lies in
`[10 KiB, 100 MiB]`; with no codec, `compress` and `decompress` are the
identity (hence the flag is forced to false at the sender, since the iff
requires `s = true`). -/
theorem senderCompressedFlag_spec (e s : Bool) (n : Nat)
    (codec : List Nat → List Nat) (d : List Nat) :
    (senderCompressedFlag e s n = true ↔
      (e = true ∧ s = true ∧ 10 * 1024 ≤ n ∧ n ≤ 100 * 1024 * 1024))
    ∧ compress false codec d = d ∧ decompress false codec d = d := by
  refine ⟨?_, rfl, rfl⟩
  simp [senderCompressedFlag, shouldCompress, and_assoc]

/-! ## C8: protocol errors at the broker -/

/-- C8 counterexample: the claim says a malformed inbound frame is logged and
dropped with no reply; in fact the broker replies
`error{INVALID_CODE, "Invalid message format"}` to the sender. -/
theorem onMessage_malformed_replies :
    (onMessage serverStateEmpty 0 "conn-1" "000042" "lock-1" .malformed).2 =
      [.reply (.error .INVALID_CODE "Invalid message format")]
    ∧ (onMessage serverStateEmpty 0 "conn-1" "000042" "lock-1" .malformed).2 ≠ [] := by
  exact ⟨rfl, by decide⟩

/-- C8 (amended): for every inbound message that is malformed JSON or has an
unknown `type` discriminator, the broker replies `error{INVALID_CODE}` to the
sender (message `"Invalid message format"` resp. `"Unknown message type"`)
and leaves all state unchanged. -/
theorem onMessage_protocol_error_reply (st : ServerState) (now : Nat)
    (senderId roomId mintedLockId : String) :
    onMessage st now senderId roomId mintedLockId .malformed =
      (st, [.reply (.error .INVALID_CODE "Invalid message format")])
    ∧ onMessage st now senderId roomId mintedLockId .unknownType =
      (st, [.reply (.error .INVALID_CODE "Unknown message type")]) :=
  ⟨rfl, rfl⟩

/-! ## C2: code validation and expiry -/

/-- C2 counterexample: a code registered at t=0 is still validated as true at
t=300000 ms, the instant exactly 300 s after registration, though the claim
demands false for every `now ≥ created_at + 300 s`. -/
theorem validateCode_true_at_exact_expiry :
    (validateCode cmRegisteredAtZero 300000 "123456").1 = true
    ∧ 0 + 300 * 1000 ≤ 300000 := by
  exact ⟨rfl, by norm_num⟩

/-- C2 (amended): `validate(c)` is false whenever `now > created_at(c) + 300 s`
(strictly after the TTL, the expired entry is also evicted), and false for any
code that was never registered. -/
theorem validateCode_false_after_expiry (st : CMState) (now : Nat) (code : String) :
    (st.activeCodes code = none → (validateCode st now code).1 = false)
    ∧ (∀ info, st.activeCodes code = some info →
        info.createdAt + CODE_EXPIRY_MS < now → (validateCode st now code).1 = false) := by
  constructor
  · intro h
    simp [validateCode, h]
  · intro info h hlt
    simp only [validateCode, h]
    rw [if_pos (by unfold CODE_EXPIRY_MS at hlt ⊢; omega)]

/-- Witness for C2: both branches of `validateCode_false_after_expiry` at
concrete inputs (an unregistered code, and `"123456"` registered at 0 queried
at t=300001 ms). -/
theorem validateCode_false_after_expiry_witness :
    (validateCode cmEmpty 5 "999999").1 = false
    ∧ (validateCode cmRegisteredAtZero 300001 "123456").1 = false :=
  ⟨(validateCode_false_after_expiry cmEmpty 5 "999999").1 rfl,
   (validateCode_false_after_expiry cmRegisteredAtZero 300001 "123456").2
     ⟨"receiver-abc", 0⟩ rfl (by norm_num [CODE_EXPIRY_MS])⟩

/-! ## C10: unchecked lock minting and the `sender` fallback role -/

/-- C10: `lock_connection` stores a lock for the requested `peer_id` and
replies `connection_locked` unconditionally — no hypothesis about `peer_id`
being a peer of the room is needed; and a valid, unexpired
`reconnect_with_lock` whose locked peer has left the room still succeeds,
replying `peer_joined` with the fallback role `sender`. -/
theorem lockConnection_unchecked_and_fallback_role (st : ServerState) (now : Nat)
    (peerId mintedLockId senderId lockId : String) :
    ((handleLockConnection st now peerId mintedLockId).2 =
        [.reply (.connectionLocked mintedLockId (now + 5 * 60 * 1000))]
      ∧ (handleLockConnection st now peerId mintedLockId).1.locks mintedLockId =
          some ⟨mintedLockId, peerId, now + 5 * 60 * 1000⟩)
    ∧ (∀ lock, st.locks lockId = some lock → now ≤ lock.expiresAt →
        st.peers lock.peerId = none →
        handleReconnectWithLock st now senderId lockId =
          ({ st with locks := mapDel st.locks lockId },
           [.reply (.peerJoined senderId Role.sender now)])) := by
  refine ⟨⟨rfl, by simp [handleLockConnection, mapSet]⟩, ?_⟩
  intro lock hl hexp hpeer
  unfold handleReconnectWithLock
  rw [hl]
  simp only [hpeer]
  rw [if_neg (by omega)]

/-- Witness for C10: in a room whose only lock (`"lock-2"`) points at the
departed peer `"conn-gone"`, locking an unknown peer id still replies
`connection_locked`, and reconnecting with `"lock-2"` at t=100 yields
`peer_joined` with role `sender`. -/
theorem lockConnection_unchecked_and_fallback_role_witness :
    (handleLockConnection serverStateLockNoPeer 0 "nobody" "lock-9").2 =
      [.reply (.connectionLocked "lock-9" (0 + 5 * 60 * 1000))]
    ∧ (handleReconnectWithLock serverStateLockNoPeer 100 "conn-new" "lock-2").2 =
      [.reply (.peerJoined "conn-new" Role.sender 100)] :=
  ⟨(lockConnection_unchecked_and_fallback_role serverStateLockNoPeer 0
      "nobody" "lock-9" "conn-new" "lock-2").1.1,
   congrArg Prod.snd
     ((lockConnection_unchecked_and_fallback_role serverStateLockNoPeer 100
        "nobody" "lock-9" "conn-new" "lock-2").2
       ⟨"lock-2", "conn-gone", 300000⟩ rfl (by norm_num) rfl)⟩

/-! ## C7: reconnect-with-lock lifecycle -/

/-- C7: with an existing, unexpired lock whose peer is still present, a
`reconnect_with_lock` consumes the lock, transplants the locked peer onto the
new connection id and replies `peer_joined` with the new id and the inherited
role; a second `reconnect_with_lock` with the same lock id on the resulting
state is answered `LOCK_NOT_FOUND`; and an existing but expired lock is
answered `LOCK_EXPIRED`. -/
theorem handleReconnectWithLock_spec (st : ServerState) (now now2 : Nat)
    (senderId senderId2 lockId : String) (lock : ConnectionLock) (peer : PeerInfo)
    (hl : st.locks lockId = some lock) (hpeer : st.peers lock.peerId = some peer) :
    (now ≤ lock.expiresAt →
      handleReconnectWithLock st now senderId lockId =
        ({ st with locks := mapDel st.locks lockId
                   peers := mapSet (mapDel st.peers lock.peerId) senderId peer },
         [.reply (.peerJoined senderId peer.role now)])
      ∧ (handleReconnectWithLock
            { st with locks := mapDel st.locks lockId
                      peers := mapSet (mapDel st.peers lock.peerId) senderId peer }
            now2 senderId2 lockId).2 =
          [.reply (.error .LOCK_NOT_FOUND "Lock not found")])
    ∧ (lock.expiresAt < now →
      handleReconnectWithLock st now senderId lockId =
        ({ st with locks := mapDel st.locks lockId },
         [.reply (.error .LOCK_EXPIRED "Lock has expired")])) := by
  constructor
  · intro hexp
    constructor
    · unfold handleReconnectWithLock
      rw [hl]
      simp only [hpeer]
      rw [if_neg (by omega)]
    · unfold handleReconnectWithLock
      have hdel : mapDel st.locks lockId lockId = none := by simp [mapDel]
      simp only [hdel]
  · intro hexp
    unfold handleReconnectWithLock
    simp only [hl]
    rw [if_pos (by omega)]

/-- Witness for C7: in `serverStateWithLock` (receiver `"conn-r"` present,
lock `"lock-1"` expiring at t=300000), reconnecting at t=100 transplants the
receiver role onto `"conn-r2"`, a second use of `"lock-1"` is
`LOCK_NOT_FOUND`, and at t=300001 the lock is `LOCK_EXPIRED`. -/
theorem handleReconnectWithLock_spec_witness :
    (handleReconnectWithLock serverStateWithLock 100 "conn-r2" "lock-1").2 =
      [.reply (.peerJoined "conn-r2" Role.receiver 100)]
    ∧ (handleReconnectWithLock
        { serverStateWithLock with
            locks := mapDel serverStateWithLock.locks "lock-1"
            peers := mapSet (mapDel serverStateWithLock.peers "conn-r") "conn-r2"
              ⟨"conn-r", Role.receiver⟩ }
        200 "conn-r3" "lock-1").2 =
      [.reply (.error .LOCK_NOT_FOUND "Lock not found")]
    ∧ (handleReconnectWithLock serverStateWithLock 300001 "conn-r2" "lock-1").2 =
      [.reply (.error .LOCK_EXPIRED "Lock has expired")] := by
  have h1 := handleReconnectWithLock_spec serverStateWithLock 100 200 "conn-r2" "conn-r3"
    "lock-1" ⟨"lock-1", "conn-r", 300000⟩ ⟨"conn-r", Role.receiver⟩ rfl rfl
  have h2 := handleReconnectWithLock_spec serverStateWithLock 300001 200 "conn-r2" "conn-r3"
    "lock-1" ⟨"lock-1", "conn-r", 300000⟩ ⟨"conn-r", Role.receiver⟩ rfl rfl
  exact ⟨congrArg Prod.snd ((h1.1 (by norm_num)).1), (h1.1 (by norm_num)).2,
    congrArg Prod.snd (h2.2 (by norm_num))⟩

/-! ## C1: generated code format -/

/-- Decimal rendering of `n < 10^(k+1)` takes at most `k+1` characters. -/
theorem decDigits_length_le (k : Nat) : ∀ n, n < 10 ^ (k + 1) → (decDigits n).length ≤ k + 1 := by
  induction k with
  | zero =>
    intro n h
    rw [pow_one] at h
    unfold decDigits
    rw [dif_pos h]
    simp
  | succ k ih =>
    intro n h
    by_cases h10 : n < 10
    · unfold decDigits
      rw [dif_pos h10]
      simp
    · unfold decDigits
      rw [dif_neg h10, List.length_append]
      have hdiv : n / 10 < 10 ^ (k + 1) := by
        rw [Nat.div_lt_iff_lt_mul (by norm_num)]
        calc n < 10 ^ (k + 1 + 1) := h
          _ = 10 ^ (k + 1) * 10 := by ring
      have := ih (n / 10) hdiv
      simp only [List.length_cons, List.length_nil]
      omega

/-- Every code drawn from `[0, 10000)` is rendered as exactly 4 characters. -/
theorem generateRandomCode_length (rand : Nat) (h : rand < 10000) :
    (generateRandomCode rand).length = 4 := by
  have hlen : (decDigits rand).length ≤ 4 := decDigits_length_le 3 rand (by norm_num; omega)
  unfold generateRandomCode padStartL
  rw [List.length_append, List.length_replicate]
  omega

/-- Whatever the activity predicate decides, the retry loop returns the padded
rendering of one of the PRNG draws. -/
theorem generateCodeGo_mem (isActive : Nat → List Char → Bool) (draws : Nat → Nat) :
    ∀ fuel attempts, ∃ k, generateCodeGo isActive draws attempts fuel =
      generateRandomCode (draws k) := by
  intro fuel
  induction fuel with
  | zero => exact fun a => ⟨a, rfl⟩
  | succ fuel ih =>
    intro a
    unfold generateCodeGo
    by_cases hc : (isActive a (generateRandomCode (draws a)) && decide (a + 1 < 200)) = true
    · rw [if_pos hc]
      exact ih (a + 1)
    · rw [if_neg hc]
      exact ⟨a, rfl⟩

/-- C1 (the code contradicts the claim, its own constants and its own unit
test): every code produced by `CodeManager.generateCode` has exactly 4
characters — `generateRandomCode` draws from `[0, 10000)` and pads to length
4, although `CODE_LENGTH = 6` and the test expects `^\d{6}$` — so no
generated code ever matches the six-digit format. -/
theorem generateCode_not_six_digits (isActive : Nat → List Char → Bool)
    (draws : Nat → Nat) (h : ∀ k, draws k < 10000) :
    (generateCode isActive draws).length = 4
    ∧ matchesSixDigits (generateCode isActive draws) = false := by
  obtain ⟨k, hk⟩ := generateCodeGo_mem isActive draws 200 0
  unfold generateCode
  rw [hk]
  have h4 := generateRandomCode_length (draws k) (h k)
  exact ⟨h4, by simp [matchesSixDigits, h4]⟩

/-- Witness for C1: with an inactive code table and the PRNG constantly
drawing 0, the generated code (`"0000"`) has length 4 and fails `^\d{6}$`. -/
theorem generateCode_not_six_digits_witness :
    (generateCode (fun _ _ => false) (fun _ => 0)).length = 4
    ∧ matchesSixDigits (generateCode (fun _ _ => false) (fun _ => 0)) = false :=
  generateCode_not_six_digits (fun _ _ => false) (fun _ => 0) (fun _ => by norm_num)

/-! ## C9: completeness tracking ignores index ranges -/

/-- C9: with metadata set, `isComplete` compares only the number of stored
chunk entries with `totalChunks` (no range check on the indices); feeding the
out-of-range chunk `index = 5` into a fresh accumulator expecting one chunk
makes `isComplete` true while index 0 is missing, and `merge` then fails with
`Missing chunk 0` even though `isComplete` reported true. -/
theorem isComplete_ignores_index_range :
    (∀ (acc : ChunkAccumulator) (m : ChunkMetadata), acc.metadata = some m →
      acc.isComplete = (acc.receivedChunks.length == m.totalChunks))
    ∧ accOutOfRange.isComplete = true
    ∧ accOutOfRange.merge = .error "Missing chunk 0"
    ∧ accOutOfRange.getMissingChunks = [0] := by
  refine ⟨?_, rfl, rfl, rfl⟩
  intro acc m h
  unfold ChunkAccumulator.isComplete
  rw [h]

/-- Witness for C9: the general count-only characterisation of `isComplete`
instantiated at the out-of-range accumulator. -/
theorem isComplete_ignores_index_range_witness :
    accOutOfRange.isComplete = (accOutOfRange.receivedChunks.length == mdOneChunk.totalChunks) :=
  isComplete_ignores_index_range.1 accOutOfRange mdOneChunk rfl

/-! ## C6: the abuse-control gate of `join_room` -/

/-- Helper: `isLockedOut` leaves the state alone unless it answers false. -/
theorem isLockedOut_snd_or (cm : CMState) (now : Nat) (ip : String) :
    (isLockedOut cm now ip).2 = cm ∨ (isLockedOut cm now ip).1 = false := by
  unfold isLockedOut
  rcases cm.lockouts ip with _ | info
  · exact .inl rfl
  · dsimp only
    rcases info.lockedUntil with _ | lu
    · exact .inl rfl
    · dsimp only
      split
      · exact .inr rfl
      · exact .inl rfl

/-- When `isLockedOut` answers true, it has not touched the state. -/
theorem isLockedOut_true_snd (cm : CMState) (now : Nat) (ip : String)
    (h : (isLockedOut cm now ip).1 = true) : (isLockedOut cm now ip).2 = cm :=
  (isLockedOut_snd_or cm now ip).resolve_right (by simp [h])

/-- Helper: `isLockedOut` never touches the rate buckets, and can only shrink the
recorded failure count (by evicting an elapsed lockout). -/
theorem isLockedOut_effects (cm : CMState) (now : Nat) (ip : String) :
    (isLockedOut cm now ip).2.rateLimits = cm.rateLimits
    ∧ failCount (isLockedOut cm now ip).2 ip ≤ failCount cm ip := by
  unfold isLockedOut
  rcases cm.lockouts ip with _ | info
  · exact ⟨rfl, le_refl _⟩
  · dsimp only
    rcases info.lockedUntil with _ | lu
    · exact ⟨rfl, le_refl _⟩
    · dsimp only
      split
      · refine ⟨rfl, ?_⟩
        unfold failCount
        simp [mapDel]
      · exact ⟨rfl, le_refl _⟩

/-- Helper: `checkRateLimit` leaves the state alone unless it answers true. -/
theorem checkRateLimit_snd_or (cm : CMState) (now : Nat) (ip : String) :
    (checkRateLimit cm now ip).2 = cm ∨ (checkRateLimit cm now ip).1 = true := by
  unfold checkRateLimit
  rcases cm.rateLimits ip with _ | info
  · exact .inl rfl
  · dsimp only
    split
    · exact .inr rfl
    · exact .inl rfl

/-- When `checkRateLimit` answers false, it has not touched the state. -/
theorem checkRateLimit_false_snd (cm : CMState) (now : Nat) (ip : String)
    (h : (checkRateLimit cm now ip).1 = false) : (checkRateLimit cm now ip).2 = cm :=
  (checkRateLimit_snd_or cm now ip).resolve_right (by simp [h])

/-- Helper: `checkRateLimit` never touches the lockout table. -/
theorem checkRateLimit_lockouts (cm : CMState) (now : Nat) (ip : String) :
    (checkRateLimit cm now ip).2.lockouts = cm.lockouts := by
  unfold checkRateLimit
  rcases cm.rateLimits ip with _ | info
  · rfl
  · dsimp only
    split <;> rfl

/-- Helper: `recordAttempt` never touches the lockout table. -/
theorem recordAttempt_lockouts (cm : CMState) (now : Nat) (ip : String) :
    (recordAttempt cm now ip).lockouts = cm.lockouts := by
  unfold recordAttempt
  rcases cm.rateLimits ip with _ | info
  · rfl
  · dsimp only
    split <;> rfl

/-- Helper: `validateCode` never touches the lockout table. -/
theorem validateCode_lockouts (cm : CMState) (now : Nat) (code : String) :
    (validateCode cm now code).2.lockouts = cm.lockouts := by
  unfold validateCode
  rcases cm.activeCodes code with _ | info
  · rfl
  · dsimp only
    split <;> rfl

/-- Helper: `recordFailedAttempt` advances the failure counter by exactly one. -/
theorem failCount_recordFailedAttempt (cm : CMState) (now : Nat) (ip : String) :
    failCount (recordFailedAttempt cm now ip) ip = failCount cm ip + 1 := by
  unfold recordFailedAttempt failCount
  rcases hL : cm.lockouts ip with _ | info <;> simp [hL, mapSet]

/-- C6: at entry to `join_room` the gates fire in order.  A locked-out key is
answered `RATE_LIMITED` with the state untouched (no attempt recorded, no
failure added); a rate-limited key is answered `RATE_LIMITED` with the rate
buckets untouched and the failure count not advanced; a failed validation
records exactly one more failure for the key and answers `INVALID_CODE`; a
successful validation clears the key's lockout record and broadcasts
`peer_joined`. -/
theorem handleJoinRoom_gate_order (st : ServerState) (now : Nat)
    (senderId code : String) (role : Role) (ip : String) :
    ((isLockedOut st.cm now ip).1 = true →
      handleJoinRoom st now senderId code role ip =
        (st, [.reply (.error .RATE_LIMITED "Too many failed attempts. Please wait 5 minutes.")]))
    ∧ ((isLockedOut st.cm now ip).1 = false →
       (checkRateLimit (isLockedOut st.cm now ip).2 now ip).1 = false →
        handleJoinRoom st now senderId code role ip =
          ({ st with cm := (isLockedOut st.cm now ip).2 },
           [.reply (.error .RATE_LIMITED "Too many requests. Please wait a moment.")])
        ∧ (isLockedOut st.cm now ip).2.rateLimits = st.cm.rateLimits
        ∧ failCount (isLockedOut st.cm now ip).2 ip ≤ failCount st.cm ip)
    ∧ ((isLockedOut st.cm now ip).1 = false →
       (checkRateLimit (isLockedOut st.cm now ip).2 now ip).1 = true →
       (validateCode (recordAttempt (checkRateLimit (isLockedOut st.cm now ip).2 now ip).2 now ip)
          now code).1 = false →
        (handleJoinRoom st now senderId code role ip).2 =
          [.reply (.error .INVALID_CODE "Invalid or expired code")]
        ∧ failCount (handleJoinRoom st now senderId code role ip).1.cm ip =
            failCount (isLockedOut st.cm now ip).2 ip + 1)
    ∧ ((isLockedOut st.cm now ip).1 = false →
       (checkRateLimit (isLockedOut st.cm now ip).2 now ip).1 = true →
       (validateCode (recordAttempt (checkRateLimit (isLockedOut st.cm now ip).2 now ip).2 now ip)
          now code).1 = true →
        (handleJoinRoom st now senderId code role ip).2 =
          [.broadcast (.peerJoined senderId role now)]
        ∧ (handleJoinRoom st now senderId code role ip).1.cm.lockouts ip = none) := by
  refine ⟨?_, ?_, ?_, ?_⟩
  · intro h
    have hsnd := isLockedOut_true_snd st.cm now ip h
    rcases hA : isLockedOut st.cm now ip with ⟨locked, cm1⟩
    rw [hA] at h hsnd
    simp only at h hsnd
    subst h
    subst hsnd
    unfold handleJoinRoom
    simp [hA]
  · intro h hrate
    have hsnd := checkRateLimit_false_snd (isLockedOut st.cm now ip).2 now ip hrate
    refine ⟨?_, (isLockedOut_effects st.cm now ip).1, (isLockedOut_effects st.cm now ip).2⟩
    rcases hA : isLockedOut st.cm now ip with ⟨locked, cm1⟩
    rw [hA] at h hrate hsnd
    simp only at h hrate hsnd
    subst h
    rcases hB : checkRateLimit cm1 now ip with ⟨rateOk, cm2⟩
    rw [hB] at hrate hsnd
    simp only at hrate hsnd
    subst hrate
    subst hsnd
    unfold handleJoinRoom
    simp [hA, hB]
  · intro h hrate hvalid
    rcases hA : isLockedOut st.cm now ip with ⟨locked, cm1⟩
    rw [hA] at h hrate hvalid
    simp only at h hrate hvalid ⊢
    subst h
    rcases hB : checkRateLimit cm1 now ip with ⟨rateOk, cm2⟩
    rw [hB] at hrate hvalid
    simp only at hrate hvalid
    subst hrate
    rcases hC : validateCode (recordAttempt cm2 now ip) now code with ⟨valid, cm4⟩
    rw [hC] at hvalid
    simp only at hvalid
    subst hvalid
    have hjoin : handleJoinRoom st now senderId code role ip =
        ({ st with cm := recordFailedAttempt cm4 now ip },
         [.reply (.error .INVALID_CODE "Invalid or expired code")]) := by
      unfold handleJoinRoom
      simp [hA, hB, hC]
    rw [hjoin]
    refine ⟨rfl, ?_⟩
    have h4 : cm4.lockouts = cm1.lockouts := by
      have hv := validateCode_lockouts (recordAttempt cm2 now ip) now code
      rw [hC] at hv
      rw [hv, recordAttempt_lockouts]
      have hc := checkRateLimit_lockouts cm1 now ip
      rw [hB] at hc
      exact hc
    rw [failCount_recordFailedAttempt]
    unfold failCount
    rw [h4]
  · intro h hrate hvalid
    rcases hA : isLockedOut st.cm now ip with ⟨locked, cm1⟩
    rw [hA] at h hrate hvalid
    simp only at h hrate hvalid ⊢
    subst h
    rcases hB : checkRateLimit cm1 now ip with ⟨rateOk, cm2⟩
    rw [hB] at hrate hvalid
    simp only at hrate hvalid
    subst hrate
    rcases hC : validateCode (recordAttempt cm2 now ip) now code with ⟨valid, cm4⟩
    rw [hC] at hvalid
    simp only at hvalid
    subst hvalid
    have hjoin : handleJoinRoom st now senderId code role ip =
        ({ st with cm := recordSuccessfulAttempt cm4 ip
                   peers := mapSet st.peers senderId ⟨senderId, role⟩ },
         [.broadcast (.peerJoined senderId role now)]) := by
      unfold handleJoinRoom
      simp [hA, hB, hC]
    rw [hjoin]
    refine ⟨rfl, ?_⟩
    simp [recordSuccessfulAttempt, mapDel]

/-- Witness for C6: the four gate branches at concrete states — a locked-out
key, an exhausted rate bucket, an unknown code, and a registered code. -/
theorem handleJoinRoom_gate_order_witness :
    handleJoinRoom serverStateLocked 0 "conn-s" "123456" Role.sender "1.2.3.4" =
      (serverStateLocked,
       [.reply (.error .RATE_LIMITED "Too many failed attempts. Please wait 5 minutes.")])
    ∧ (handleJoinRoom serverStateRateLimited 0 "conn-s" "123456" Role.sender "1.2.3.4").2 =
      [.reply (.error .RATE_LIMITED "Too many requests. Please wait a moment.")]
    ∧ (handleJoinRoom serverStateEmpty 0 "conn-s" "999999" Role.sender "1.2.3.4").2 =
      [.reply (.error .INVALID_CODE "Invalid or expired code")]
    ∧ (handleJoinRoom { serverStateEmpty with cm := cmRegisteredAtZero } 100 "conn-s"
        "123456" Role.sender "1.2.3.4").2 =
      [.broadcast (.peerJoined "conn-s" Role.sender 100)] := by
  refine ⟨?_, ?_, ?_, ?_⟩
  · exact (handleJoinRoom_gate_order serverStateLocked 0 "conn-s" "123456"
      Role.sender "1.2.3.4").1 rfl
  · exact ((handleJoinRoom_gate_order serverStateRateLimited 0 "conn-s" "123456"
      Role.sender "1.2.3.4").2.1 rfl rfl).1 ▸ rfl
  · exact ((handleJoinRoom_gate_order serverStateEmpty 0 "conn-s" "999999"
      Role.sender "1.2.3.4").2.2.1 rfl rfl rfl).1
  · exact ((handleJoinRoom_gate_order { serverStateEmpty with cm := cmRegisteredAtZero }
      100 "conn-s" "123456" Role.sender "1.2.3.4").2.2.2 rfl rfl rfl).1

/-! ## C4: the split/merge round-trip -/

/-- Lookup distributes over appended association lists. -/
theorem mapGet_append (m1 m2 : List (Nat × List Nat)) (k : Nat) :
    mapGet (m1 ++ m2) k =
      match mapGet m1 k with
      | some v => some v
      | none => mapGet m2 k := by
  induction m1 with
  | nil => simp [mapGet]
  | cons p rest ih =>
    rcases p with ⟨k', v⟩
    by_cases h : k' = k
    · simp [mapGet, h]
    · simp only [List.cons_append, mapGet, if_neg h]
      exact ih

/-- Helper: `addChunk` never changes the metadata. -/
theorem addChunk_metadata (acc : ChunkAccumulator) (c : Chunk) :
    (acc.addChunk c).1.metadata = acc.metadata := by
  unfold ChunkAccumulator.addChunk
  split <;> rfl

/-- Neither does feeding a whole list of chunks. -/
theorem addAllChunks_metadata (cs : List Chunk) : ∀ acc : ChunkAccumulator,
    (addAllChunks acc cs).metadata = acc.metadata := by
  induction cs with
  | nil => intro acc; rfl
  | cons c rest ih =>
    intro acc
    unfold addAllChunks at ih ⊢
    rw [List.foldl_cons, ih, addChunk_metadata]

/-- Feeding chunks whose indices are fresh (mutually distinct and absent from
the accumulator) appends exactly one entry per chunk, in order. -/
theorem addAllChunks_received (cs : List Chunk) : ∀ acc : ChunkAccumulator,
    (∀ c ∈ cs, mapGet acc.receivedChunks c.index = none) →
    (cs.map Chunk.index).Nodup →
    (addAllChunks acc cs).receivedChunks =
      acc.receivedChunks ++ cs.map (fun c => (c.index, c.data)) := by
  induction cs with
  | nil =>
    intro acc _ _
    simp [addAllChunks]
  | cons c rest ih =>
    intro acc hnone hnodup
    have hc : mapGet acc.receivedChunks c.index = none := hnone c (by simp)
    rw [List.map_cons] at hnodup
    obtain ⟨hni, hnd⟩ := List.nodup_cons.mp hnodup
    have step : (acc.addChunk c).1 =
        { acc with receivedChunks := acc.receivedChunks ++ [(c.index, c.data)] } := by
      unfold ChunkAccumulator.addChunk
      rw [hc]
      rfl
    unfold addAllChunks at ih ⊢
    rw [List.foldl_cons, step]
    rw [ih _ ?_ hnd]
    · simp
    · intro c' hc'
      simp only
      rw [mapGet_append, hnone c' (by simp [hc'])]
      have : c.index ≠ c'.index := by
        intro he
        exact hni (he ▸ List.mem_map_of_mem Chunk.index hc')
      simp [mapGet, this]

/-- The indices produced by `split` are exactly `0, …, totalChunks - 1`. -/
theorem split_map_index (file : List Nat) (cs : Nat) :
    (split file cs).map Chunk.index = List.range (ceilDiv file.length cs) := by
  unfold split
  rw [List.map_map]
  conv_rhs => rw [← List.map_id (List.range (ceilDiv file.length cs))]
  apply List.map_congr_left
  intro i _
  rfl

/-- The association pairs produced by `split`. -/
theorem split_map_pair (file : List Nat) (cs : Nat) :
    (split file cs).map (fun c => (c.index, c.data)) =
      (List.range (ceilDiv file.length cs)).map
        (fun i => (i, (file.drop (i * cs)).take cs)) := by
  unfold split
  rw [List.map_map]
  apply List.map_congr_left
  intro i _
  rfl

/-- Lookup misses every key at or beyond `n` in the range-indexed table. -/
theorem mapGet_range_map_ge (f : Nat → List Nat) : ∀ n j : Nat, n ≤ j →
    mapGet ((List.range n).map (fun i => (i, f i))) j = none := by
  intro n
  induction n with
  | zero => intro j _; rfl
  | succ n ih =>
    intro j hj
    rw [List.range_succ, List.map_append, mapGet_append, ih j (by omega)]
    simp only [List.map_cons, List.map_nil, mapGet]
    rw [if_neg (by omega)]

/-- Lookup finds every key below `n` in the range-indexed table. -/
theorem mapGet_range_map (f : Nat → List Nat) : ∀ n j : Nat, j < n →
    mapGet ((List.range n).map (fun i => (i, f i))) j = some (f j) := by
  intro n
  induction n with
  | zero => intro j h; omega
  | succ n ih =>
    intro j hj
    rw [List.range_succ, List.map_append, mapGet_append]
    by_cases h : j < n
    · rw [ih j h]
    · have hjn : j = n := by omega
      subst hjn
      rw [mapGet_range_map_ge f j j le_rfl]
      simp [mapGet]

/-- When every requested index is present, the merge loop collects exactly the
stored payloads. -/
theorem collectChunks_ok (m : List (Nat × List Nat)) (f : Nat → List Nat) :
    ∀ idxs : List Nat, (∀ j ∈ idxs, mapGet m j = some (f j)) →
    collectChunks m idxs = .ok (idxs.map f) := by
  intro idxs
  induction idxs with
  | nil => intro _; rfl
  | cons i rest ih =>
    intro h
    unfold collectChunks
    rw [h i (by simp), ih (fun j hj => h j (by simp [hj]))]
    rfl

/-- Evaluation `ceilDiv 0 b = 0` for positive `b`. -/
theorem ceilDiv_zero_left (b : Nat) (hb : 0 < b) : ceilDiv 0 b = 0 := by
  unfold ceilDiv
  exact Nat.div_eq_of_lt (by omega)

/-- For positive `n`, `ceilDiv` peels off one full-or-partial chunk. -/
theorem ceilDiv_rec (n b : Nat) (hb : 0 < b) (hn : 0 < n) :
    ceilDiv n b = ceilDiv (n - b) b + 1 := by
  have hpos : ∀ m : Nat, 0 < m → ceilDiv m b = (m - 1) / b + 1 := by
    intro m hm
    unfold ceilDiv
    have h1 : m + b - 1 = (m - 1) + b := by omega
    rw [h1, Nat.add_div_right _ hb]
  rcases Nat.lt_or_ge (n - 1) b with h | h
  · rw [hpos n hn, Nat.div_eq_of_lt h]
    have h0 : n - b = 0 := by omega
    rw [h0, ceilDiv_zero_left b hb]
  · rw [hpos n hn, hpos (n - b) (by omega)]
    rw [Nat.div_eq_sub_div hb h]
    have h2 : n - 1 - b = n - b - 1 := by omega
    rw [h2]

/-- Concatenating the `take`d windows of `split` restores the file. -/
theorem chunks_flatten (cs : Nat) (hcs : 0 < cs) : ∀ (n : Nat) (file : List Nat),
    file.length = n →
    ((List.range (ceilDiv file.length cs)).map
      (fun i => (file.drop (i * cs)).take cs)).flatten = file := by
  intro n
  induction n using Nat.strong_induction_on with
  | _ n ih =>
    intro file hn
    rcases Nat.eq_zero_or_pos n with h0 | hpos
    · subst h0
      have hfile : file = [] := List.length_eq_zero.mp hn
      subst hfile
      simp [ceilDiv_zero_left cs hcs]
    · have hflen : 0 < file.length := hn ▸ hpos
      rw [ceilDiv_rec file.length cs hcs hflen]
      rw [List.range_succ_eq_map, List.map_cons, List.flatten_cons, List.map_map]
      have hdrop : ∀ i : Nat, file.drop (Nat.succ i * cs) = (file.drop cs).drop (i * cs) := by
        intro i
        rw [List.drop_drop]
        congr 1
        rw [Nat.succ_mul, Nat.mul_comm]
        exact Nat.add_comm _ _
      have htail : (List.range (ceilDiv (file.length - cs) cs)).map
          ((fun i => (file.drop (i * cs)).take cs) ∘ Nat.succ) =
          (List.range (ceilDiv (file.drop cs).length cs)).map
            (fun i => ((file.drop cs).drop (i * cs)).take cs) := by
        rw [List.length_drop]
        apply List.map_congr_left
        intro i _
        simp only [Function.comp]
        rw [hdrop i]
      rw [htail, ih (file.length - cs) (by omega) (file.drop cs) (by rw [List.length_drop, hn])]
      simp

/-- C4: for every file and every positive chunk size, splitting the file,
feeding every produced chunk into a fresh accumulator initialised with the
file's metadata, and merging, returns exactly the file's bytes. -/
theorem split_merge_roundtrip (file : List Nat) (chunkSize : Nat) (hcs : 0 < chunkSize)
    (fileName fileType : String) :
    (addAllChunks (ChunkAccumulator.setMetadata .fresh
        (createMetadata file chunkSize fileName fileType)) (split file chunkSize)).merge
      = .ok file := by
  have hnodup : ((split file chunkSize).map Chunk.index).Nodup := by
    rw [split_map_index]
    exact List.nodup_range _
  have hrecv : (addAllChunks (ChunkAccumulator.setMetadata .fresh
        (createMetadata file chunkSize fileName fileType)) (split file chunkSize)).receivedChunks
      = (List.range (ceilDiv file.length chunkSize)).map
          (fun i => (i, (file.drop (i * chunkSize)).take chunkSize)) := by
    rw [addAllChunks_received (split file chunkSize)
      (ChunkAccumulator.setMetadata .fresh (createMetadata file chunkSize fileName fileType))
      (fun c _ => rfl) hnodup]
    rw [split_map_pair]
    rfl
  have hmeta : (addAllChunks (ChunkAccumulator.setMetadata .fresh
        (createMetadata file chunkSize fileName fileType)) (split file chunkSize)).metadata
      = some (createMetadata file chunkSize fileName fileType) := by
    rw [addAllChunks_metadata]
    rfl
  have hcomplete : (addAllChunks (ChunkAccumulator.setMetadata .fresh
        (createMetadata file chunkSize fileName fileType)) (split file chunkSize)).isComplete
      = true := by
    unfold ChunkAccumulator.isComplete
    rw [hmeta, hrecv]
    simp [createMetadata]
  unfold ChunkAccumulator.merge
  rw [hmeta]
  simp only [hcomplete, Bool.not_true, Bool.false_eq_true, if_false]
  rw [hrecv]
  rw [collectChunks_ok _ (fun i => (file.drop (i * chunkSize)).take chunkSize) _ ?_]
  · show Except.ok (((List.range (createMetadata file chunkSize fileName fileType).totalChunks).map
        (fun i => (file.drop (i * chunkSize)).take chunkSize)).flatten) = Except.ok file
    rw [show (createMetadata file chunkSize fileName fileType).totalChunks
        = ceilDiv file.length chunkSize from rfl]
    rw [chunks_flatten chunkSize hcs file.length file rfl]
  · intro j hj
    have hjlt : j < ceilDiv file.length chunkSize := by
      simpa [createMetadata] using List.mem_range.mp hj
    exact mapGet_range_map _ _ j hjlt

/-- Witness for C4: the round-trip at the concrete file `[1, 2, 3]` with chunk
size 2. -/
theorem split_merge_roundtrip_witness :
    (addAllChunks (ChunkAccumulator.setMetadata .fresh
        (createMetadata [1, 2, 3] 2 "f.bin" "application/octet-stream")) (split [1, 2, 3] 2)).merge
      = .ok [1, 2, 3] :=
  split_merge_roundtrip [1, 2, 3] 2 (by norm_num) "f.bin" "application/octet-stream"

end Flux
